import Mathlib

/-!
Shallow embedding of `src/nemu/src/monitor/sdb/sdb.c`, the command shell
("simple debugger") of the NEMU emulator.  The external collaborators
(`cpu_exec`, `isa_reg_display`, `guest_to_host`, host memory) are modelled
as an environment of abstract functions; every observable action of the
shell (printed line, execution request, register dump, memory read) is
recorded as an `Event` in a trace, in program order.
-/

namespace Sdb

/-- `NEMUState` enumeration of the emulator core (`nemu_state.state`). -/
inductive NemuStatusKind where
  | NEMU_RUNNING
  | NEMU_STOP
  | NEMU_END
  | NEMU_ABORT
  | NEMU_QUIT
deriving DecidableEq

/-- The emulator state the shell touches: `nemu_state.state`,
`nemu_state.halt_pc`, `nemu_state.halt_ret` and `cpu.pc`. -/
structure NemuState where
  state : NemuStatusKind
  halt_pc : Nat
  halt_ret : Int
  pc : Nat
deriving DecidableEq

/-- One observable action of the shell, recorded in program order:
a line printed to stdout, a call `cpu_exec n`, a call `isa_reg_display()`,
or a one-byte read of host memory at a host address. -/
inductive Event where
  | output (s : String)
  | cpuExec (n : Nat)
  | regDisplay
  | memRead (haddr : Nat)
deriving DecidableEq

/-- External collaborators of the shell, out of scope of this module:
the execution primitive's effect on the emulator state, guest-to-host
address translation, host memory contents, and the platform's `%p`
pointer rendering. -/
structure Env where
  cpu_exec : Nat → NemuState → NemuState
  guest_to_host : Nat → Nat
  readByte : Nat → Nat
  fmtPtr : Nat → String

/-- A single-quote character, used by the `Unknown command` diagnostics. -/
def sq : String := (Char.ofNat 39).toString

/-- `isspace` of the C library (the characters `atoi` skips). -/
def isCSpace (c : Char) : Bool :=
  c == ' ' || c == '\t' || c == '\n' || c == Char.ofNat 11 || c == Char.ofNat 12 || c == '\r'

/-- Value of the maximal leading run of decimal digits (0 when there is none). -/
def decDigits (cs : List Char) : Nat :=
  (cs.takeWhile Char.isDigit).foldl (fun acc c => acc * 10 + (c.toNat - 48)) 0

/-- C `atoi`: skip leading whitespace, optional sign, then the leading
digit run; a string with no leading digits parses as 0. -/
def atoi (s : String) : Int :=
  match s.toList.dropWhile isCSpace with
  | '-' :: rest => -(decDigits rest : Int)
  | '+' :: rest => (decDigits rest : Int)
  | cs => (decDigits cs : Int)

/-- `%0wx` of `printf`: lowercase hexadecimal, zero-padded to width `w`. -/
def hexPad (w : Nat) (m : Nat) : String :=
  let ds := Nat.toDigits 16 m
  ⟨List.replicate (w - ds.length) '0' ++ ds⟩

/-- The tokens `strtok(NULL, " ")` yields from a buffer: the maximal
space-free words, in order. -/
def wordsAux : List Char → List Char → List String
  | [], acc => if acc.isEmpty then [] else [acc.reverse.asString]
  | c :: cs, acc =>
    if c == ' ' then
      if acc.isEmpty then wordsAux cs [] else acc.reverse.asString :: wordsAux cs []
    else wordsAux cs (c :: acc)

/-- The sequence of tokens a handler obtains by repeated `strtok(NULL, " ")`
from the argument remainder (`NULL` remainder yields no token). -/
def strtokTokens (args : Option String) : List String :=
  match args with
  | none => []
  | some s => wordsAux s.toList []

/-- First `strtok(NULL, " ")` call of a handler. -/
def firstTok (args : Option String) : Option String :=
  (strtokTokens args).head?

/-- A handler takes the argument remainder (NULL modelled as `none`) and
the emulator state, and yields its `int` return status, the new state and
its event trace. -/
def Handler : Type :=
  Env → Option String → NemuState → Int × NemuState × List Event

/-- `cmd_c`: `cpu_exec(-1)` — the `-1` converts to `2^64 - 1` at the
`uint64_t` parameter — and return 0. -/
def cmd_c : Handler := fun env _ st =>
  (0, env.cpu_exec (2 ^ 64 - 1) st, [Event.cpuExec (2 ^ 64 - 1)])

/-- `cmd_q`: set the emulator state to `NEMU_QUIT`, print an exit message
that depends on `halt_ret`, print `Bye!`, and return -1. -/
def cmd_q : Handler := fun _ _ st =>
  let st2 := { st with state := NemuStatusKind.NEMU_QUIT }
  let msg :=
    if st.halt_ret ≠ 0 then
      "NEMU has exited with code " ++ toString st.halt_ret ++ "."
    else
      "NEMU has exited successfully."
  (-1, st2, [Event.output msg, Event.output "Bye!"])

/-- `cmd_si`: with no token step once; with a token `a`, run
`cpu_exec(atoi a)` when the parse is positive, otherwise print the
invalid-step diagnostic and do nothing; always return 0. -/
def cmd_si : Handler := fun env args st =>
  match firstTok args with
  | none => (0, env.cpu_exec 1 st, [Event.cpuExec 1])
  | some a =>
    let n := atoi a
    if n ≤ 0 then
      (0, st, [Event.output ("Invalid step count: " ++ a)])
    else
      (0, env.cpu_exec n.toNat st, [Event.cpuExec n.toNat])

/-- `cmd_info`: dispatch on the first token `r`/`w`/`c`, otherwise print a
diagnostic; with no token print the usage summary; always return 0. -/
def cmd_info : Handler := fun _ args st =>
  match firstTok args with
  | some a =>
    if a = "r" then
      (0, st, [Event.regDisplay])
    else if a = "w" then
      (0, st, [Event.output "(Watchpoints are not implemented yet.)"])
    else if a = "c" then
      (0, st,
        [Event.output ("NEMU state: " ++
           (if st.state = NemuStatusKind.NEMU_RUNNING then "RUNNING" else "HALTED")),
         Event.output ("Halt PC: 0x" ++ hexPad 8 (st.halt_pc % 2 ^ 32)),
         Event.output ("cpu PC: 0x" ++ hexPad 8 (st.pc % 2 ^ 32)),
         Event.output ("Halt return value: " ++ toString st.halt_ret)])
    else
      (0, st, [Event.output ("Unknown argument " ++ sq ++ a ++ sq ++ " for " ++
        sq ++ "info" ++ sq ++ " command.")])
  | none =>
    (0, st,
      [Event.output "Usage: info <r|w|c>",
       Event.output "  r - print registers",
       Event.output "  w - print watchpoints (not implemented yet)",
       Event.output "  c - print NEMU state and halt information"])

/-- `cmd_x`: two `strtok` calls; if either token is missing print usage and
perform no read; otherwise print the tokens, read one byte at the fixed
guest address `0x80000000` through `guest_to_host`, and print it; always
return 0. -/
def cmd_x : Handler := fun env args st =>
  let toks := strtokTokens args
  match toks.head?, (toks.drop 1).head? with
  | some n, some e =>
    let haddr := env.guest_to_host 0x80000000
    let value := env.readByte haddr % 256
    (0, st,
      [Event.output ("N = " ++ n ++ ", EXPR = " ++ e),
       Event.memRead haddr,
       Event.output ("Byte at address " ++ env.fmtPtr haddr ++ ": 0x" ++ hexPad 2 value)])
  | _, _ => (0, st, [Event.output "Usage: x <N> <EXPR>"])

/-- Name and description columns of `cmd_table` (the data `cmd_help`
reads; split out because the table also stores `cmd_help` itself). -/
def cmd_rows : List (String × String) :=
  [("help", "Display information about all supported commands"),
   ("c", "Continue the execution of the program"),
   ("q", "Exit NEMU"),
   ("si", "Execute N step(s)"),
   ("info", "Print program state"),
   ("x", "Scan memory")]

/-- `cmd_help`: with no token print every table row in order; with a token
print the first row of that name, or `Unknown command '<arg>'`; always
return 0. -/
def cmd_help : Handler := fun _ args st =>
  match firstTok args with
  | none =>
    (0, st, cmd_rows.map (fun r => Event.output (r.1 ++ " - " ++ r.2)))
  | some a =>
    match cmd_rows.find? (fun r => r.1 == a) with
    | some r => (0, st, [Event.output (r.1 ++ " - " ++ r.2)])
    | none => (0, st, [Event.output ("Unknown command " ++ sq ++ a ++ sq)])

/-- One row of `cmd_table`. -/
structure CmdEntry where
  name : String
  description : String
  handler : Handler

/-- The command table, in registration order. -/
def cmd_table : List CmdEntry :=
  [⟨"help", "Display information about all supported commands", cmd_help⟩,
   ⟨"c", "Continue the execution of the program", cmd_c⟩,
   ⟨"q", "Exit NEMU", cmd_q⟩,
   ⟨"si", "Execute N step(s)", cmd_si⟩,
   ⟨"info", "Print program state", cmd_info⟩,
   ⟨"x", "Scan memory", cmd_x⟩]

/-- The linear lookup of `sdb_mainloop`: first table row whose name equals
the command word. -/
def lookupCmd (c : String) : Option CmdEntry :=
  cmd_table.find? (fun e => e.name == c)

/-- One line's tokenization in `sdb_mainloop`, on the character list of the
line buffer: `cmd = strtok(str, " ")` is the first space-free word;
`args = cmd + strlen(cmd) + 1`, clamped to `NULL` when that pointer reaches
`str_end = str + strlen(str)`. -/
def tokenizeChars (cs : List Char) : Option (String × Option String) :=
  let p := (cs.takeWhile (fun c => c == ' ')).length
  let t := (cs.drop p).takeWhile (fun c => !(c == ' '))
  if t.isEmpty then none
  else if cs.length ≤ p + t.length + 1 then some (t.asString, none)
  else some (t.asString, some ((cs.drop (p + t.length + 1)).asString))

/-- Tokenization of one fetched line. -/
def tokenize (line : String) : Option (String × Option String) :=
  tokenizeChars line.toList

/-- The `DISPATCHING` step: look the command word up; invoke the handler
when found, otherwise print `Unknown command '<word>'` with status 0. -/
def dispatch (env : Env) (c : String) (args : Option String) (st : NemuState) :
    Int × NemuState × List Event :=
  match lookupCmd c with
  | some e => e.handler env args st
  | none => (0, st, [Event.output ("Unknown command " ++ sq ++ c ++ sq)])

/-- The interactive loop of `sdb_mainloop` over the lines the line source
yields before end-of-input: skip token-free lines, dispatch the rest, and
return as soon as a handler's status is negative. -/
def runLines (env : Env) : List String → NemuState → NemuState × List Event
  | [], st => (st, [])
  | line :: rest, st =>
    match tokenize line with
    | none => runLines env rest st
    | some (c, args) =>
      let r := dispatch env c args st
      if r.1 < 0 then (r.2.1, r.2.2)
      else
        let k := runLines env rest r.2.1
        (k.1, r.2.2 ++ k.2)

/-- `sdb_mainloop`: in batch mode call `cmd_c(NULL)` once and return;
otherwise run the interactive loop on the fetched lines. -/
def sdb_mainloop (env : Env) (batch : Bool) (lines : List String) (st : NemuState) :
    NemuState × List Event :=
  if batch then
    let r := cmd_c env none st
    (r.2.1, r.2.2)
  else runLines env lines st

/-- Initial value of the `is_batch_mode` flag. -/
def is_batch_mode_init : Bool := false

/-- `sdb_set_batch_mode` as a transformer of the flag: it writes `true`
whatever the flag held. -/
def sdb_set_batch_mode (_flag : Bool) : Bool := true

/-! ### Concrete fixtures used to instantiate the theorems -/

/-- A concrete environment: execution leaves the state unchanged, the
translation offsets by 7, memory holds the byte 0xab everywhere. -/
def envW : Env :=
  { cpu_exec := fun _ s => s
    guest_to_host := fun a => a + 7
    readByte := fun _ => 171
    fmtPtr := fun _ => "0x7ffff0000007" }

/-- A concrete emulator state with a zero halt return code. -/
def stW : NemuState :=
  { state := NemuStatusKind.NEMU_RUNNING, halt_pc := 0, halt_ret := 0, pc := 0 }

/-- A concrete emulator state whose halt return code is 1. -/
def stA : NemuState :=
  { state := NemuStatusKind.NEMU_END, halt_pc := 128, halt_ret := 1, pc := 128 }

/-- A concrete emulator state whose halt return code is 2. -/
def stB : NemuState :=
  { state := NemuStatusKind.NEMU_END, halt_pc := 128, halt_ret := 2, pc := 128 }

/-- A concrete emulator state with a zero halt return code and a program
counter different from `stW`. -/
def stW2 : NemuState :=
  { state := NemuStatusKind.NEMU_STOP, halt_pc := 4, halt_ret := 0, pc := 64 }

/-! ### Helper lemmas -/

lemma cmd_c_fst (env : Env) (a : Option String) (st : NemuState) :
    (cmd_c env a st).1 = 0 := rfl

lemma cmd_q_fst (env : Env) (a : Option String) (st : NemuState) :
    (cmd_q env a st).1 = -1 := rfl

lemma cmd_si_fst (env : Env) (a : Option String) (st : NemuState) :
    (cmd_si env a st).1 = 0 := by
  unfold cmd_si
  cases firstTok a with
  | none => rfl
  | some x =>
    dsimp only
    split <;> rfl

lemma cmd_info_fst (env : Env) (a : Option String) (st : NemuState) :
    (cmd_info env a st).1 = 0 := by
  unfold cmd_info
  cases firstTok a with
  | none => rfl
  | some x =>
    dsimp only
    split_ifs <;> rfl

lemma cmd_x_fst (env : Env) (a : Option String) (st : NemuState) :
    (cmd_x env a st).1 = 0 := by
  unfold cmd_x
  dsimp only
  split <;> rfl

lemma cmd_help_fst (env : Env) (a : Option String) (st : NemuState) :
    (cmd_help env a st).1 = 0 := by
  unfold cmd_help
  cases firstTok a with
  | none => rfl
  | some x =>
    dsimp only
    split <;> rfl

/-- Every table entry other than the `q` row has a handler that returns 0
on every input. -/
lemma table_handler_fst (e : CmdEntry) (he : e ∈ cmd_table) (hne : e.name ≠ "q")
    (env : Env) (a : Option String) (st : NemuState) :
    (e.handler env a st).1 = 0 := by
  simp only [cmd_table, List.mem_cons, List.not_mem_nil, or_false] at he
  rcases he with rfl | rfl | rfl | rfl | rfl | rfl
  · exact cmd_help_fst env a st
  · exact cmd_c_fst env a st
  · exact absurd rfl hne
  · exact cmd_si_fst env a st
  · exact cmd_info_fst env a st
  · exact cmd_x_fst env a st

lemma dispatch_of_lookup (env : Env) {c : String} (a : Option String) (st : NemuState)
    {e : CmdEntry} (hl : lookupCmd c = some e) :
    dispatch env c a st = e.handler env a st := by
  unfold dispatch
  rw [hl]

lemma dispatch_of_lookup_none (env : Env) {c : String} (a : Option String) (st : NemuState)
    (hl : lookupCmd c = none) :
    dispatch env c a st = (0, st, [Event.output ("Unknown command " ++ sq ++ c ++ sq)]) := by
  unfold dispatch
  rw [hl]

/-- The dispatch status of any word other than `q` is 0: either the match
is a non-quit handler, or the word is unknown (status 0 after the
diagnostic). -/
lemma dispatch_fst_of_ne_q (env : Env) (c : String) (a : Option String) (st : NemuState)
    (h : c ≠ "q") :
    (dispatch env c a st).1 = 0 := by
  cases hl : lookupCmd c with
  | none => rw [dispatch_of_lookup_none env a st hl]
  | some e =>
    rw [dispatch_of_lookup env a st hl]
    have hmem : e ∈ cmd_table := List.mem_of_find?_eq_some hl
    have hname : e.name = c := by simpa using List.find?_some hl
    exact table_handler_fst e hmem (hname ▸ h) env a st

lemma runLines_cons_none (env : Env) {line : String} (rest : List String) (st : NemuState)
    (h : tokenize line = none) :
    runLines env (line :: rest) st = runLines env rest st := by
  simp only [runLines, h]

lemma runLines_cons_neg (env : Env) {line : String} (rest : List String) (st : NemuState)
    {c : String} {args : Option String}
    (htok : tokenize line = some (c, args)) (hneg : (dispatch env c args st).1 < 0) :
    runLines env (line :: rest) st = ((dispatch env c args st).2.1, (dispatch env c args st).2.2) := by
  simp only [runLines, htok]
  rw [if_pos hneg]

lemma runLines_cons_nonneg (env : Env) {line : String} (rest : List String) (st : NemuState)
    {c : String} {args : Option String}
    (htok : tokenize line = some (c, args)) (hnn : 0 ≤ (dispatch env c args st).1) :
    runLines env (line :: rest) st =
      ((runLines env rest (dispatch env c args st).2.1).1,
       (dispatch env c args st).2.2 ++ (runLines env rest (dispatch env c args st).2.1).2) := by
  simp only [runLines, htok]
  rw [if_neg (not_lt.mpr hnn)]

lemma takeWhile_space_of_append (p : Nat) (w : List Char) (hns : ∀ c ∈ w, c ≠ ' ') :
    (List.replicate p ' ' ++ w).takeWhile (fun c => c == ' ') = List.replicate p ' ' := by
  induction p with
  | zero =>
    simp only [List.replicate, List.nil_append]
    cases w with
    | nil => rfl
    | cons c w2 =>
      rw [List.takeWhile_cons]
      have hc : (c == ' ') = false :=
        beq_eq_false_iff_ne.mpr (hns c (List.mem_cons_self c w2))
      rw [hc]
      simp
  | succ q ih =>
    rw [List.replicate_succ, List.cons_append, List.takeWhile_cons]
    simp only [beq_self_eq_true, if_true]
    rw [ih]

lemma tokenizeChars_all_space (cs : List Char) (h : ∀ c ∈ cs, c = ' ') :
    tokenizeChars cs = none := by
  have h1 : List.takeWhile (fun c => c == ' ') cs = cs :=
    List.takeWhile_eq_self_iff.mpr (fun x hx => by simpa using h x hx)
  simp only [tokenizeChars]
  rw [h1, List.drop_length]
  rfl

lemma tokenizeChars_word (p : Nat) (w : List Char) (hw : w ≠ []) (hns : ∀ c ∈ w, c ≠ ' ') :
    tokenizeChars (List.replicate p ' ' ++ w) = some (w.asString, none) := by
  simp only [tokenizeChars]
  rw [takeWhile_space_of_append p w hns, List.length_replicate]
  rw [show (List.replicate p ' ' ++ w).drop p = w by
    simp]
  rw [List.takeWhile_eq_self_iff.mpr
    (fun x hx => by simpa using hns x hx)]
  rw [List.length_append, List.length_replicate]
  split_ifs with h1 h2
  · exact absurd (by simpa using h1) hw
  · rfl
  · exact absurd (by omega) h2

/-- The name/description columns of `cmd_table` are exactly `cmd_rows`. -/
lemma cmd_rows_eq_map : cmd_rows = cmd_table.map (fun e => (e.name, e.description)) := rfl

/-- Looking a name up among the rows `cmd_help` scans agrees with the
dispatch lookup over the table. -/
lemma find?_rows_eq (a : String) :
    cmd_rows.find? (fun r => r.1 == a) =
      (lookupCmd a).map (fun e => (e.name, e.description)) := by
  rw [cmd_rows_eq_map, lookupCmd]
  exact List.find?_map _ _

/-! ### Claim theorems -/

/-- C1: the `si` command steps exactly once with no argument; with an
argument whose integer parse is positive it requests exactly that many
steps; with a non-positive parse (non-numeric input parses as 0) it
performs no step and prints the invalid-step diagnostic; it returns
status 0 in every case. -/
theorem cmd_si_step_contract (env : Env) (args : Option String) (st : NemuState) :
    (cmd_si env args st).1 = 0 ∧
    (firstTok args = none →
      cmd_si env args st = (0, env.cpu_exec 1 st, [Event.cpuExec 1])) ∧
    (∀ a, firstTok args = some a → 0 < atoi a →
      cmd_si env args st =
        (0, env.cpu_exec (atoi a).toNat st, [Event.cpuExec (atoi a).toNat])) ∧
    (∀ a, firstTok args = some a → atoi a ≤ 0 →
      cmd_si env args st = (0, st, [Event.output ("Invalid step count: " ++ a)])) := by
  refine ⟨cmd_si_fst env args st, ?_, ?_, ?_⟩
  · intro h
    simp [cmd_si, h]
  · intro a ha hpos
    simp [cmd_si, ha, not_le.mpr hpos]
  · intro a ha hle
    simp [cmd_si, ha, hle]

/-- Witness for C1 at the arguments `"3"` (three steps requested) and
`"abc"` (parses as 0, rejected with a diagnostic and no step). -/
theorem cmd_si_step_contract_witness :
    firstTok (some "3") = some "3" ∧ 0 < atoi "3" ∧ (atoi "3").toNat = 3 ∧
    cmd_si envW (some "3") stW =
      (0, envW.cpu_exec (atoi "3").toNat stW, [Event.cpuExec (atoi "3").toNat]) ∧
    firstTok (some "abc") = some "abc" ∧ atoi "abc" ≤ 0 ∧
    cmd_si envW (some "abc") stW =
      (0, stW, [Event.output ("Invalid step count: " ++ "abc")]) :=
  ⟨by decide, by decide, by decide,
   (cmd_si_step_contract envW (some "3") stW).2.2.1 "3" (by decide) (by decide),
   by decide, by decide,
   (cmd_si_step_contract envW (some "abc") stW).2.2.2 "abc" (by decide) (by decide)⟩

/-- C2: a dispatched handler's negative status makes the loop return at
once, with no further line consumed; a non-negative status makes it
proceed with the remaining lines; and `cmd_q` returns -1 on every input. -/
theorem sdb_loop_status_contract (env : Env) (st : NemuState)
    (line : String) (rest : List String) (c : String) (args : Option String)
    (e : CmdEntry) (htok : tokenize line = some (c, args)) (hlook : lookupCmd c = some e) :
    ((e.handler env args st).1 < 0 →
      runLines env (line :: rest) st =
        ((e.handler env args st).2.1, (e.handler env args st).2.2)) ∧
    (0 ≤ (e.handler env args st).1 →
      runLines env (line :: rest) st =
        ((runLines env rest (e.handler env args st).2.1).1,
         (e.handler env args st).2.2 ++
           (runLines env rest (e.handler env args st).2.1).2)) ∧
    (∀ (env2 : Env) (a2 : Option String) (st2 : NemuState), (cmd_q env2 a2 st2).1 = -1) := by
  have hd : dispatch env c args st = e.handler env args st :=
    dispatch_of_lookup env args st hlook
  refine ⟨fun hneg => ?_, fun hnn => ?_, fun env2 a2 st2 => rfl⟩
  · rw [runLines_cons_neg env rest st htok (by rw [hd]; exact hneg), hd]
  · rw [runLines_cons_nonneg env rest st htok (by rw [hd]; exact hnn), hd]

/-- Witness for C2: the line `q` terminates the loop before the line
`help` is ever processed. -/
theorem sdb_loop_status_contract_witness :
    tokenize "q" = some ("q", none) ∧
    lookupCmd "q" = some ⟨"q", "Exit NEMU", cmd_q⟩ ∧
    (cmd_q envW none stW).1 < 0 ∧
    runLines envW ["q", "help"] stW =
      ((cmd_q envW none stW).2.1, (cmd_q envW none stW).2.2) := by
  refine ⟨by decide, rfl, by decide, ?_⟩
  exact (sdb_loop_status_contract envW stW "q" ["help"] "q" none
    ⟨"q", "Exit NEMU", cmd_q⟩ (by decide) rfl).1 (by decide)

/-- C3 counterexample: two states whose halt return codes are both
non-zero (1 and 2) on which `cmd_q` prints different messages, refuting
dependence on zero-ness alone. -/
theorem cmd_q_zeroness_counterexample :
    stA.halt_ret ≠ 0 ∧ stB.halt_ret ≠ 0 ∧
    (cmd_q envW none stA).2.2 ≠ (cmd_q envW none stB).2.2 := by decide

/-- C3 (amended): the output of `cmd_q` depends only on the recorded halt
return code: equal codes give identical output; a zero code gives the
fixed success message and farewell; a non-zero code gives the failure
message naming that code, then the farewell. -/
theorem cmd_q_output_depends_on_halt_ret (env1 env2 : Env) (a1 a2 : Option String)
    (st1 st2 : NemuState) (h : st1.halt_ret = st2.halt_ret) :
    (cmd_q env1 a1 st1).2.2 = (cmd_q env2 a2 st2).2.2 ∧
    (st1.halt_ret = 0 →
      (cmd_q env1 a1 st1).2.2 =
        [Event.output "NEMU has exited successfully.", Event.output "Bye!"]) ∧
    (st1.halt_ret ≠ 0 →
      (cmd_q env1 a1 st1).2.2 =
        [Event.output ("NEMU has exited with code " ++ toString st1.halt_ret ++ "."),
         Event.output "Bye!"]) := by
  refine ⟨?_, fun h0 => ?_, fun h0 => ?_⟩
  · simp [cmd_q, h]
  · simp [cmd_q, h0]
  · simp [cmd_q, h0]

/-- Witness for the amended C3 at two distinct states with equal (zero)
halt return codes. -/
theorem cmd_q_output_depends_on_halt_ret_witness :
    stW.halt_ret = stW2.halt_ret ∧
    (cmd_q envW none stW).2.2 = (cmd_q envW none stW2).2.2 :=
  ⟨rfl, (cmd_q_output_depends_on_halt_ret envW envW none none stW stW2 rfl).1⟩

/-- C4: a line whose command word matches no table entry makes the loop
print `Unknown command '<word>'`, invoke no handler (the state is passed
on untouched), and continue with the next line. -/
theorem unknown_command_contract (env : Env) (st : NemuState)
    (line : String) (rest : List String) (c : String) (args : Option String)
    (htok : tokenize line = some (c, args)) (hlook : lookupCmd c = none) :
    runLines env (line :: rest) st =
      ((runLines env rest st).1,
       Event.output ("Unknown command " ++ sq ++ c ++ sq) :: (runLines env rest st).2) := by
  have hd := dispatch_of_lookup_none env args st hlook
  rw [runLines_cons_nonneg env rest st htok (by rw [hd]), hd]
  simp

/-- Witness for C4 at the unregistered word `foo`. -/
theorem unknown_command_contract_witness :
    tokenize "foo" = some ("foo", none) ∧ lookupCmd "foo" = none ∧
    runLines envW ["foo"] stW =
      ((runLines envW [] stW).1,
       Event.output ("Unknown command " ++ sq ++ "foo" ++ sq) :: (runLines envW [] stW).2) :=
  ⟨by decide, rfl, unknown_command_contract envW stW "foo" [] "foo" none (by decide) rfl⟩

/-- C5: in batch mode the loop result is one `cmd_c` call with absent
argument, identical whatever lines the line source holds (so none is ever
fetched); in interactive mode the loop is the line-driven REPL. -/
theorem batch_mode_contract (env : Env) (lines lines2 : List String) (st : NemuState) :
    sdb_mainloop env true lines st = ((cmd_c env none st).2.1, (cmd_c env none st).2.2) ∧
    sdb_mainloop env true lines st = sdb_mainloop env true lines2 st ∧
    sdb_mainloop env false lines st = runLines env lines st :=
  ⟨rfl, rfl, rfl⟩

/-- C6 counterexample: the line holding one tab character is
all-whitespace, yet it is not skipped: it has a command word and its
iteration prints an `Unknown command` diagnostic (the delimiter is the
space character only). -/
theorem tokenizer_whitespace_counterexample :
    "\t".toList.all (fun ch => ch.isWhitespace) = true ∧
    tokenize "\t" ≠ none ∧
    runLines envW ["\t"] stW ≠ runLines envW [] stW := by decide

/-- C6 (amended): a line that is empty or made of space characters only
yields no command word and the iteration is skipped silently; when
nothing follows the command word before end of line the argument
remainder is the absent value, not an empty string. -/
theorem tokenizer_contract (env : Env) (st : NemuState) (rest : List String) (line : String) :
    (line.toList.all (fun ch => ch == ' ') = true →
      tokenize line = none ∧ runLines env (line :: rest) st = runLines env rest st) ∧
    (∀ (p : Nat) (w : List Char), w ≠ [] → w.all (fun ch => !(ch == ' ')) = true →
      line.toList = List.replicate p ' ' ++ w →
      tokenize line = some (w.asString, none)) := by
  constructor
  · intro h
    have h1 : tokenize line = none :=
      tokenizeChars_all_space line.toList (fun c hc => by
        have h2 := List.all_eq_true.mp h c hc
        simpa using h2)
    exact ⟨h1, runLines_cons_none env rest st h1⟩
  · intro p w hw hns hline
    have hns2 : ∀ c ∈ w, c ≠ ' ' := fun c hc => by
      have h2 := List.all_eq_true.mp hns c hc
      simpa using h2
    unfold tokenize
    rw [hline]
    exact tokenizeChars_word p w hw hns2

/-- Witness for the amended C6: the line of three spaces is skipped, and
the line `" si"` yields the word `si` with an absent remainder. -/
theorem tokenizer_contract_witness :
    "   ".toList.all (fun ch => ch == ' ') = true ∧
    tokenize "   " = none ∧
    runLines envW ["   ", "q"] stW = runLines envW ["q"] stW ∧
    " si".toList = List.replicate 1 ' ' ++ ['s', 'i'] ∧
    tokenize " si" = some (['s', 'i'].asString, none) := by
  refine ⟨by decide, ?_, ?_, by decide, ?_⟩
  · exact ((tokenizer_contract envW stW ["q"] "   ").1 (by decide)).1
  · exact ((tokenizer_contract envW stW ["q"] "   ").1 (by decide)).2
  · exact (tokenizer_contract envW stW [] " si").2 1 ['s', 'i'] (by decide) (by decide)
      (by decide)

/-- C7: `x` with fewer than two tokens prints only the usage line and
performs no memory access; with two tokens it reads exactly one byte at
the fixed guest address 0x80000000 through guest-to-host translation —
independent of the token values — prints it, and returns 0. -/
theorem cmd_x_contract (env : Env) (args : Option String) (st : NemuState) :
    (cmd_x env args st).1 = 0 ∧ (cmd_x env args st).2.1 = st ∧
    ((strtokTokens args).length ≤ 1 →
      cmd_x env args st = (0, st, [Event.output "Usage: x <N> <EXPR>"])) ∧
    (∀ n e more, strtokTokens args = n :: e :: more →
      cmd_x env args st =
        (0, st,
          [Event.output ("N = " ++ n ++ ", EXPR = " ++ e),
           Event.memRead (env.guest_to_host 0x80000000),
           Event.output ("Byte at address " ++ env.fmtPtr (env.guest_to_host 0x80000000) ++
             ": 0x" ++ hexPad 2 (env.readByte (env.guest_to_host 0x80000000) % 256))])) := by
  refine ⟨cmd_x_fst env args st, ?_, ?_, ?_⟩
  · unfold cmd_x
    dsimp only
    split <;> rfl
  · intro hlen
    rcases htoks : strtokTokens args with _ | ⟨n, _ | ⟨e, more⟩⟩
    · simp [cmd_x, htoks]
    · simp [cmd_x, htoks]
    · rw [htoks] at hlen
      simp only [List.length_cons] at hlen
      omega
  · intro n e more htoks
    simp [cmd_x, htoks]

/-- Witness for C7 at the two-token argument `"4 x+1"` and the absent
argument. -/
theorem cmd_x_contract_witness :
    strtokTokens (some "4 x+1") = ["4", "x+1"] ∧
    cmd_x envW (some "4 x+1") stW =
      (0, stW,
        [Event.output ("N = " ++ "4" ++ ", EXPR = " ++ "x+1"),
         Event.memRead (envW.guest_to_host 0x80000000),
         Event.output ("Byte at address " ++ envW.fmtPtr (envW.guest_to_host 0x80000000) ++
           ": 0x" ++ hexPad 2 (envW.readByte (envW.guest_to_host 0x80000000) % 256))]) ∧
    (strtokTokens none).length ≤ 1 ∧
    cmd_x envW none stW = (0, stW, [Event.output "Usage: x <N> <EXPR>"]) :=
  ⟨by decide,
   (cmd_x_contract envW (some "4 x+1") stW).2.2.2 "4" "x+1" [] (by decide),
   by decide,
   (cmd_x_contract envW none stW).2.2.1 (by decide)⟩

/-- C8: `help` with no token prints each command-table row's name and
description once, in table order; with a registered name it prints exactly
that row; with an unregistered name it prints `Unknown command '<name>'`;
it always returns 0. -/
theorem cmd_help_contract (env : Env) (args : Option String) (st : NemuState) :
    (cmd_help env args st).1 = 0 ∧
    (firstTok args = none →
      (cmd_help env args st).2.2 =
        cmd_table.map (fun e => Event.output (e.name ++ " - " ++ e.description))) ∧
    (∀ a e, firstTok args = some a → lookupCmd a = some e →
      (cmd_help env args st).2.2 = [Event.output (e.name ++ " - " ++ e.description)]) ∧
    (∀ a, firstTok args = some a → lookupCmd a = none →
      (cmd_help env args st).2.2 = [Event.output ("Unknown command " ++ sq ++ a ++ sq)]) := by
  refine ⟨cmd_help_fst env args st, ?_, ?_, ?_⟩
  · intro h
    simp [cmd_help, h, cmd_rows_eq_map, List.map_map, Function.comp]
  · intro a e ha he
    simp [cmd_help, ha, find?_rows_eq, he]
  · intro a ha hn
    simp [cmd_help, ha, find?_rows_eq, hn]

/-- Witness for C8: `help` with no argument, with the registered name
`si`, and with the unregistered name `zz`. -/
theorem cmd_help_contract_witness :
    firstTok none = none ∧
    (cmd_help envW none stW).2.2 =
      cmd_table.map (fun e => Event.output (e.name ++ " - " ++ e.description)) ∧
    firstTok (some "si") = some "si" ∧
    lookupCmd "si" = some ⟨"si", "Execute N step(s)", cmd_si⟩ ∧
    (cmd_help envW (some "si") stW).2.2 =
      [Event.output ("si" ++ " - " ++ "Execute N step(s)")] ∧
    lookupCmd "zz" = none ∧
    (cmd_help envW (some "zz") stW).2.2 =
      [Event.output ("Unknown command " ++ sq ++ "zz" ++ sq)] := by
  refine ⟨rfl, ?_, by decide, rfl, ?_, rfl, ?_⟩
  · exact (cmd_help_contract envW none stW).2.1 rfl
  · exact (cmd_help_contract envW (some "si") stW).2.2.1 "si"
      ⟨"si", "Execute N step(s)", cmd_si⟩ (by decide) rfl
  · exact (cmd_help_contract envW (some "zz") stW).2.2.2 "zz" (by decide) rfl

/-- C9: every registered handler except `cmd_q` returns 0 on every
argument and state; hence an interactive iteration whose command word is
not `q` always proceeds to the next line, so the loop can end only
through `q` or end-of-input. -/
theorem handlers_nonquit_contract (env : Env) (args : Option String) (st : NemuState) :
    (cmd_help env args st).1 = 0 ∧ (cmd_c env args st).1 = 0 ∧
    (cmd_si env args st).1 = 0 ∧ (cmd_info env args st).1 = 0 ∧
    (cmd_x env args st).1 = 0 ∧
    (∀ (line : String) (rest : List String) (c : String) (a : Option String),
      tokenize line = some (c, a) → c ≠ "q" →
      runLines env (line :: rest) st =
        ((runLines env rest (dispatch env c a st).2.1).1,
         (dispatch env c a st).2.2 ++ (runLines env rest (dispatch env c a st).2.1).2)) := by
  refine ⟨cmd_help_fst env args st, cmd_c_fst env args st, cmd_si_fst env args st,
    cmd_info_fst env args st, cmd_x_fst env args st, ?_⟩
  intro line rest c a htok hne
  exact runLines_cons_nonneg env rest st htok (dispatch_fst_of_ne_q env c a st hne).ge

/-- Witness for C9 at the line `help`, whose iteration proceeds to the
(empty) remainder of the input. -/
theorem handlers_nonquit_contract_witness :
    tokenize "help" = some ("help", none) ∧ ("help" : String) ≠ "q" ∧
    runLines envW ["help"] stW =
      ((runLines envW [] (dispatch envW "help" none stW).2.1).1,
       (dispatch envW "help" none stW).2.2 ++
         (runLines envW [] (dispatch envW "help" none stW).2.1).2) :=
  ⟨by decide, by decide,
   (handlers_nonquit_contract envW none stW).2.2.2.2.2 "help" [] "help" none
     (by decide) (by decide)⟩

/-- C10: the shell-mode flag starts interactive (`false`); its only
writer `sdb_set_batch_mode` sets it to batch (`true`), is idempotent, and
never yields `false`, so nothing resets the flag to interactive. -/
theorem batch_flag_monotone :
    is_batch_mode_init = false ∧
    (∀ b : Bool, sdb_set_batch_mode b = true) ∧
    (∀ b : Bool, sdb_set_batch_mode (sdb_set_batch_mode b) = sdb_set_batch_mode b) ∧
    (∀ b : Bool, sdb_set_batch_mode b ≠ false) :=
  ⟨rfl, fun _ => rfl, fun _ => rfl, fun _ => by simp [sdb_set_batch_mode]⟩

end Sdb
